import Mathlib

/-
Verification of the red-black tree implementation in
algo_and_ds/red_black_tree.py.

The Python code mutates a heap of node objects linked by left, right and
parent references, with one shared sentinel object NIL_LEAF used for every
empty child slot.  We embed this as explicit state passing over an arena:
nodes are identified by natural-number ids, the sentinel is id 0, and the
store maps every id to its current record of fields.  Fresh ids are taken
from a counter, mirroring object allocation.  Python exceptions
(TypeError, AttributeError, NotImplementedError, ValueError) become an
error type; unbounded recursion in inner_find and in the in-order
generator is modelled with fuel, with a distinguished diverge marker when
the fuel runs out.
-/

namespace RedBlackTree

/- class Shades(Enum): BLACK = 0; RED = 1 -/
inductive Shades where
  | BLACK
  | RED
deriving DecidableEq

/- The fields of an RBNode object: value, color, parent, left, right.
   value is an int or Python None; parent, left, right are references to
   node objects (arena ids) or Python None. -/
structure RBNodeData where
  value : Option Int
  color : Shades
  parent : Option Nat
  left : Option Nat
  right : Option Nat
deriving DecidableEq

/- NIL_LEAF = RBNode(value=None, color=Shades.BLACK, parent=None),
   with left and right defaulting to None. -/
def nilData : RBNodeData :=
  { value := none, color := Shades.BLACK, parent := none, left := none, right := none }

/- The mutable state of a RedBlackTree object together with the object
   heap.  Id 0 always holds the shared sentinel NIL_LEAF.  nextId is the
   allocator counter: every id at or above it is unallocated. -/
structure TreeState where
  store : Nat → RBNodeData
  root : Option Nat
  count : Nat
  nextId : Nat

/- Exceptions the Python code can raise, plus a marker for unbounded
   recursion (modelled by fuel exhaustion). -/
inductive PyError where
  | typeError
  | attributeError
  | notImplementedError
  | valueError
  | diverge
deriving DecidableEq

/- The direction strings used by the code, 'L' and 'R'. -/
inductive Dir where
  | L
  | R
deriving DecidableEq

/- RedBlackTree.__init__: count = 0, root = None.  The arena starts with
   the sentinel at id 0 (every unallocated slot also reads as a default
   record, which no operation ever inspects before writing). -/
def initState : TreeState :=
  { store := fun _ => nilData, root := none, count := 0, nextId := 1 }

/- Write a whole node record at an id (object allocation or replacement). -/
def setNode (s : TreeState) (i : Nat) (d : RBNodeData) : TreeState :=
  { s with store := fun j => if j = i then d else s.store j }

/- X.left = v -/
def setLeft (s : TreeState) (i : Nat) (v : Option Nat) : TreeState :=
  setNode s i { s.store i with left := v }

/- X.right = v -/
def setRight (s : TreeState) (i : Nat) (v : Option Nat) : TreeState :=
  setNode s i { s.store i with right := v }

/- X.color = c -/
def setColor (s : TreeState) (i : Nat) (c : Shades) : TreeState :=
  setNode s i { s.store i with color := c }

/- RBNode.__eq__ applied to two node objects (ids i and j, with i the
   left operand self).  The first branch is
     self.value is None and self.value is other.value
  (identity of the None singletons).  parents_are_same compares the two
  parent objects by value and color when both exist. -/
def nodeEq (s : TreeState) (i j : Nat) : Bool :=
  let a := s.store i
  let b := s.store j
  if a.value = none ∧ b.value = none then
    true
  else
    let pas : Bool :=
      match a.parent, b.parent with
      | none, none => true
      | none, some _ => false
      | some _, none => false
      | some pa, some pb =>
        decide ((s.store pa).value = (s.store pb).value) &&
          decide ((s.store pa).color = (s.store pb).color)
    decide (a.value = b.value) && decide (a.color = b.color) && pas

/- _right_rotation(self, A, X, B, Y, C, to_recolor=None):
     X.left = A; X.right = Y; Y.left = B; Y.right = C
     if to_recolor: X.color = BLACK; to_recolor.color = RED; Y.color = RED
   The attribute assignments require X and Y to be node objects; at both
   call sites in the source they always are, so the error branches for a
   Python None receiver are unreachable there. -/
def rightRotation (s : TreeState) (A X B Y C : Option Nat) (toRecolor : Option Nat) :
    Except PyError TreeState :=
  match X with
  | none => .error .attributeError
  | some x =>
    let s1 := setLeft s x A
    let s2 := setRight s1 x Y
    match Y with
    | none => .error .attributeError
    | some y =>
      let s3 := setLeft s2 y B
      let s4 := setRight s3 y C
      match toRecolor with
      | none => .ok s4
      | some nd =>
        .ok (setColor (setColor (setColor s4 x Shades.BLACK) nd Shades.RED) y Shades.RED)

/- _left_rotation(self, A, X, B, Y, C, to_recolor=None):
     Y.left = X; Y.right = C; X.left = A; X.right = B
     if to_recolor: Y.color = BLACK; to_recolor.color = RED; X.color = RED -/
def leftRotation (s : TreeState) (A X B Y C : Option Nat) (toRecolor : Option Nat) :
    Except PyError TreeState :=
  match Y with
  | none => .error .attributeError
  | some y =>
    let s1 := setLeft s y X
    let s2 := setRight s1 y C
    match X with
    | none => .error .attributeError
    | some x =>
      let s3 := setLeft s2 x A
      let s4 := setRight s3 x B
      match toRecolor with
      | none => .ok s4
      | some nd =>
        .ok (setColor (setColor (setColor s4 y Shades.BLACK) nd Shades.RED) x Shades.RED)

/- _try_rebalance(self, node).  Mirrors the source line by line:
   - early return when node has no parent, the parent is the root, or
     node and parent are not both red;
   - node_direction is decided by value comparison, parent_direction by
     RBNode.__eq__ against grandfather.left;
   - the uncle is grandfather.right when node_direction is L and
     grandfather.left otherwise (the source uses node_direction here);
   - when the uncle is NIL or black, LL and RR perform the rotations with
     exactly the arguments of the source, and LR and RL raise
     NotImplementedError (the source ValueError branch cannot trigger,
     since the two directions only take four combinations);
   - otherwise the source executes self._recolor(grandfather), and since
     _recolor is defined as def _recolor(node) without a self parameter,
     that call raises TypeError (two arguments passed to a one-argument
     method) before doing anything. -/
def tryRebalance (s : TreeState) (nodeId : Nat) : Except PyError TreeState :=
  let node := s.store nodeId
  match node.parent with
  | none => .ok s
  | some parentId =>
    let parent := s.store parentId
    match parent.parent with
    | none => .ok s
    | some grandId =>
      if node.color ≠ Shades.RED ∨ parent.color ≠ Shades.RED then .ok s
      else
        match node.value, parent.value with
        | some nv, some pv =>
          let nodeDir : Dir := if nv < pv then Dir.L else Dir.R
          let grand := s.store grandId
          match grand.left with
          | none => .error .attributeError
          | some gl =>
            let parentDir : Dir := if nodeEq s parentId gl then Dir.L else Dir.R
            let uncleRef : Option Nat :=
              match nodeDir with
              | Dir.L => grand.right
              | Dir.R => grand.left
            match uncleRef with
            | none => .error .attributeError
            | some uncle =>
              if nodeEq s uncle 0 || decide ((s.store uncle).color = Shades.BLACK) then
                match parentDir, nodeDir with
                | Dir.L, Dir.L =>
                  rightRotation s (some nodeId) parent.right (some parentId)
                    (some grandId) (some uncle) (some nodeId)
                | Dir.R, Dir.R =>
                  leftRotation s (some uncle) (some grandId) parent.left
                    (some parentId) (some nodeId) (some nodeId)
                | Dir.L, Dir.R => .error .notImplementedError
                | Dir.R, Dir.L => .error .notImplementedError
              else
                .error .typeError
        | _, _ => .error .typeError

/- inner_find(parent) inside _find_parent(self, value), with fuel for the
   unbounded recursion.  Comparing the int value with a None node value
   raises TypeError at value < parent.value (equality with None is just
   False); accessing .value on a Python None child raises AttributeError. -/
def innerFind (s : TreeState) (value : Int) : Nat → Nat → Except PyError (Nat × Option Dir)
  | 0, _ => .error .diverge
  | fuel + 1, p =>
    let pd := s.store p
    match pd.value with
    | none => .error .typeError
    | some pv =>
      if value = pv then .ok (p, none)
      else if value < pv then
        match pd.left with
        | none => .error .attributeError
        | some l =>
          if (s.store l).value = none then .ok (p, some Dir.L)
          else innerFind s value fuel l
      else
        match pd.right with
        | none => .error .attributeError
        | some r =>
          if (s.store r).value = none then .ok (p, some Dir.R)
          else innerFind s value fuel r

/- _find_parent(self, value): inner_find(self.root).  Calling it with
   root = None would access None.value (AttributeError); add only calls
   it on a non-empty tree. -/
def findParent (s : TreeState) (value : Int) : Except PyError (Nat × Option Dir) :=
  match s.root with
  | none => .error .attributeError
  | some r => innerFind s value s.nextId r

/- add(self, value).  Returns the state of the tree object after the call
   together with the outcome: ok (some id) when the source executes
   return new_node, ok none for the two bare returns (empty tree and
   duplicate), and error e when an exception propagates out of
   _find_parent or _try_rebalance, in which case the state keeps every
   mutation made before the raise (the new node stays attached and count
   is not incremented, since count += 1 comes after _try_rebalance). -/
def add (s : TreeState) (value : Int) : TreeState × Except PyError (Option Nat) :=
  match s.root with
  | none =>
    let rootId := s.nextId
    let s1 := setNode s rootId
      { value := some value, color := Shades.BLACK, parent := none,
        left := some 0, right := some 0 }
    ({ s1 with root := some rootId, count := s.count + 1, nextId := s.nextId + 1 },
      .ok none)
  | some _ =>
    match findParent s value with
    | .error e => (s, .error e)
    | .ok (_, none) => (s, .ok none)
    | .ok (parentId, some dir) =>
      let newId := s.nextId
      let s1 := setNode s newId
        { value := some value, color := Shades.RED, parent := some parentId,
          left := some 0, right := some 0 }
      let s2 :=
        match dir with
        | Dir.L => setLeft s1 parentId (some newId)
        | Dir.R => setRight s1 parentId (some newId)
      let s3 := { s2 with nextId := s.nextId + 1 }
      match tryRebalance s3 newId with
      | .ok s4 => ({ s4 with count := s4.count + 1 }, .ok (some newId))
      | .error e => (s3, .error e)

/- Folding add over a list of values, keeping the object state across
   calls (a caller that catches the exceptions keeps using the tree). -/
def addList (s : TreeState) (vs : List Int) : TreeState :=
  vs.foldl (fun t v => (add t v).1) s

/- The tree object obtained from RedBlackTree() by the given add calls. -/
def stateAfter (vs : List Int) : TreeState :=
  addList initState vs

/- RBNode.__iter__, the in-order generator, with fuel for the unbounded
   recursion.  A child is traversed exactly when its value is not None. -/
def iterNode (s : TreeState) : Nat → Nat → Except PyError (List (Option Int))
  | 0, _ => .error .diverge
  | fuel + 1, i =>
    let nd := s.store i
    match nd.left with
    | none => .error .attributeError
    | some l => do
      let ls ← if (s.store l).value ≠ none then iterNode s fuel l else pure []
      match nd.right with
      | none => .error .attributeError
      | some r => do
        let rs ← if (s.store r).value ≠ none then iterNode s fuel r else pure []
        pure (ls ++ nd.value :: rs)

/- RedBlackTree.__iter__: empty sequence when root is None, else the
   in-order traversal from the root.  The fuel nextId dominates the
   number of allocated nodes, so exhaustion means the pointer structure
   reachable from the root is cyclic. -/
def inorderTree (s : TreeState) : Except PyError (List (Option Int)) :=
  match s.root with
  | none => .ok []
  | some r => iterNode s s.nextId r

/- The tree object after the calls add(30), add(20), add(10), add(15),
   add(5) on a fresh tree, with the TypeError raised inside the add(15)
   call caught by the caller (the raise happens after the new node is
   attached, so the object keeps that mutation).  The add(5) call then
   completes normally and its corrupted right rotation gives node 15 the
   children 5 and 20, closing the pointer cycle 20 -> 10 -> 15 -> 20. -/
def cyclicState : TreeState :=
  stateAfter [30, 20, 10, 15, 5]

end RedBlackTree

namespace RedBlackTree

/-! Sanity facts about the states named in the concrete scenarios, and
the theorems settling the claims. -/

lemma cyclicState_find_step2 (f : Nat) :
    innerFind cyclicState 17 (f + 1) 2 = innerFind cyclicState 17 f 3 := rfl

lemma cyclicState_find_step3 (f : Nat) :
    innerFind cyclicState 17 (f + 1) 3 = innerFind cyclicState 17 f 4 := rfl

lemma cyclicState_find_step4 (f : Nat) :
    innerFind cyclicState 17 (f + 1) 4 = innerFind cyclicState 17 f 2 := rfl

lemma cyclicState_find_cycle (f : Nat) :
    innerFind cyclicState 17 f 2 = Except.error PyError.diverge ∧
    innerFind cyclicState 17 f 3 = Except.error PyError.diverge ∧
    innerFind cyclicState 17 f 4 = Except.error PyError.diverge := by
  induction f with
  | zero => exact ⟨rfl, rfl, rfl⟩
  | succ f ih =>
    exact ⟨(cyclicState_find_step2 f).trans ih.2.1,
      (cyclicState_find_step3 f).trans ih.2.2,
      (cyclicState_find_step4 f).trans ih.1⟩

/-- Claim C1: the spec expects insert [10, 30, 20] to resolve the mixed RL
case by a two-step rotation and finish with root 20 Black over red 10 and
30.  The code instead raises: because the uncle is taken from
node_direction rather than parent_direction, the third insertion
misidentifies its own red parent (node 30) as the uncle and enters the
recoloring branch, whose call self._recolor(grandfather) raises TypeError
since _recolor is defined without a self parameter.  The new node 20 is
left attached as the left child of 30 and count is not incremented. -/
theorem c1_mixed_case_raises_typeError :
    (add (stateAfter [10, 30]) 20).2 = Except.error PyError.typeError ∧
    ((stateAfter [10, 30, 20]).store 2).value = some 30 ∧
    ((stateAfter [10, 30, 20]).store 2).color = Shades.RED ∧
    ((stateAfter [10, 30, 20]).store 2).left = some 3 ∧
    ((stateAfter [10, 30, 20]).store 3).value = some 20 ∧
    (stateAfter [10, 30, 20]).count = 2 :=
  ⟨rfl, rfl, rfl, rfl, rfl, rfl⟩

/-- Claim C2: the spec expects insert [10, 20, 30] to finish with the root
reference moved to the promoted node 20 (Black, children 10 and 30 Red,
traversal [10, 20, 30]).  The third insertion does run the RR rotation and
returns normally, and node 20 does become the local subtree root (Black,
left child the former root 10, right child 30), but no code path ever
reassigns self.root: the root reference still points to node 10, which the
rotation recolored Red and left with two sentinel children, so the
traversal of the tree is just [10]. -/
theorem c2_root_reference_not_updated :
    (add (stateAfter [10, 20]) 30).2 = Except.ok (some 3) ∧
    (stateAfter [10, 20, 30]).root = some 1 ∧
    ((stateAfter [10, 20, 30]).store 1).value = some 10 ∧
    ((stateAfter [10, 20, 30]).store 1).color = Shades.RED ∧
    ((stateAfter [10, 20, 30]).store 1).left = some 0 ∧
    ((stateAfter [10, 20, 30]).store 1).right = some 0 ∧
    ((stateAfter [10, 20, 30]).store 2).value = some 20 ∧
    ((stateAfter [10, 20, 30]).store 2).color = Shades.BLACK ∧
    ((stateAfter [10, 20, 30]).store 2).left = some 1 ∧
    ((stateAfter [10, 20, 30]).store 2).right = some 3 ∧
    inorderTree (stateAfter [10, 20, 30]) = Except.ok [some 10] :=
  ⟨rfl, rfl, rfl, rfl, rfl, rfl, rfl, rfl, rfl, rfl, rfl⟩

/-- Claim C3: the spec expects insert [30, 20, 10] (LL case, sentinel
uncle) to end with root 20 Black over red 10 and 30.  The code passes
parent.right (here the sentinel) where the rotation expects the parent
node, so the right rotation rewires the shared sentinel instead of the
real nodes: the root stays node 30, which is recolored Red above its red
child 20, and the sentinel is given the children 10 and 30. -/
theorem c3_ll_case_wrong_shape :
    (add (stateAfter [30, 20]) 10).2 = Except.ok (some 3) ∧
    (stateAfter [30, 20, 10]).root = some 1 ∧
    ((stateAfter [30, 20, 10]).store 1).value = some 30 ∧
    ((stateAfter [30, 20, 10]).store 1).color = Shades.RED ∧
    ((stateAfter [30, 20, 10]).store 1).left = some 2 ∧
    ((stateAfter [30, 20, 10]).store 2).value = some 20 ∧
    ((stateAfter [30, 20, 10]).store 2).color = Shades.RED ∧
    ((stateAfter [30, 20, 10]).store 0).left = some 3 ∧
    ((stateAfter [30, 20, 10]).store 0).right = some 1 :=
  ⟨rfl, rfl, rfl, rfl, rfl, rfl, rfl, rfl, rfl⟩

/-- Claim C4: the spec expects the red-uncle case to be resolved by
recoloring without failure.  After insert [20, 10, 30] the tree has Black
root 20 with Red children 10 and 30; inserting 5 creates a red-red
violation at 10 whose uncle 30 (the sibling of the parent under the
grandparent) is Red, and the code reaches the recoloring branch, but the
call self._recolor(grandfather) raises TypeError because _recolor is
defined without a self parameter, so rebalancing fails instead of
recoloring. -/
theorem c4_red_uncle_recolor_raises :
    ((stateAfter [20, 10, 30]).store 1).value = some 20 ∧
    ((stateAfter [20, 10, 30]).store 1).color = Shades.BLACK ∧
    ((stateAfter [20, 10, 30]).store 1).right = some 3 ∧
    ((stateAfter [20, 10, 30]).store 2).value = some 10 ∧
    ((stateAfter [20, 10, 30]).store 2).color = Shades.RED ∧
    ((stateAfter [20, 10, 30]).store 2).parent = some 1 ∧
    ((stateAfter [20, 10, 30]).store 3).value = some 30 ∧
    ((stateAfter [20, 10, 30]).store 3).color = Shades.RED ∧
    (add (stateAfter [20, 10, 30]) 5).2 = Except.error PyError.typeError :=
  ⟨rfl, rfl, rfl, rfl, rfl, rfl, rfl, rfl, rfl⟩

/-- Claim C5: the spec requires the red-black invariants (root Black, no
red-red edge, uniform black count to the sentinels) after every single
insertion.  The third insertion of [10, 20, 30] completes without raising,
yet leaves the tree root pointing at node 10 colored Red, violating the
root-is-Black invariant immediately after an insertion. -/
theorem c5_invariants_broken_after_insertion :
    (add (stateAfter [10, 20]) 30).2 = Except.ok (some 3) ∧
    (stateAfter [10, 20, 30]).root = some 1 ∧
    ((stateAfter [10, 20, 30]).store 1).color = Shades.RED :=
  ⟨rfl, rfl, rfl⟩

/-- Claim C6: the spec requires the in-order traversal to yield the
inserted values in sorted order for every insertion sequence.  After
inserting [10, 20, 30] (all three calls return normally) the RR rotation
leaves the tree root pointing at node 10 with two sentinel children, so
the traversal yields only [10]: the inserted values 20 and 30 are missing
from it. -/
theorem c6_traversal_loses_inserted_values :
    (stateAfter [10, 20, 30]).count = 3 ∧
    inorderTree (stateAfter [10, 20, 30]) = Except.ok [some 10] :=
  ⟨rfl, rfl⟩

/-- Claim C7: the spec expects inserting an already-inserted value to be a
silent no-op, so that inserting the same value twice equals inserting it
once (concrete scenario [10, 20, 10]: count 2, traversal [10, 20]).  The
concrete scenario does hold, but the general statement fails: after
[10, 20, 30] the rotation disconnects nodes 20 and 30 from the root, so
inserting 30 again is not a no-op: the search does not find it and a
second node holding 30 is attached, giving count 4 and traversal
[10, 30] after [10, 20, 30, 30] instead of the state of [10, 20, 30]
(count 3, traversal [10]). -/
theorem c7_duplicate_insert_not_noop :
    (stateAfter [10, 20, 10]).count = 2 ∧
    inorderTree (stateAfter [10, 20, 10]) = Except.ok [some 10, some 20] ∧
    (stateAfter [10, 20, 30]).count = 3 ∧
    inorderTree (stateAfter [10, 20, 30]) = Except.ok [some 10] ∧
    (add (stateAfter [10, 20, 30]) 30).2 = Except.ok (some 4) ∧
    (stateAfter [10, 20, 30, 30]).count = 4 ∧
    inorderTree (stateAfter [10, 20, 30, 30]) = Except.ok [some 10, some 30] :=
  ⟨rfl, rfl, rfl, rfl, rfl, rfl, rfl⟩

/-- Claim C8: the spec asserts every add call terminates on every state
reachable by prior insertions.  The sequence 30, 20, 10, 15, 5 (the
add(15) call raises TypeError after attaching its node; the object
remains in use) leaves a child-pointer cycle 20 -> 10 -> 15 -> 20
reachable from the root, because the corrupted LL rotation of add(5)
handed node 15 its ancestor 20 as right child.  A subsequent add(17)
descends 30, 20, 10, 15, 20, 10, ... forever: inner_find recurses without
bound no matter how much fuel it is given, and the add call itself ends
in the divergence marker. -/
theorem c8_find_parent_diverges :
    (add (stateAfter [30, 20, 10, 15]) 5).2 = Except.ok (some 5) ∧
    ((cyclicState.store 4).value = some 15 ∧ (cyclicState.store 4).right = some 2 ∧
      (cyclicState.store 2).value = some 20 ∧ (cyclicState.store 2).left = some 3 ∧
      (cyclicState.store 3).value = some 10 ∧ (cyclicState.store 3).right = some 4) ∧
    (∀ fuel, innerFind cyclicState 17 fuel 1 = Except.error PyError.diverge) ∧
    (add cyclicState 17).2 = Except.error PyError.diverge := by
  refine ⟨rfl, ⟨rfl, rfl, rfl, rfl, rfl, rfl⟩, ?_, rfl⟩
  intro fuel
  cases fuel with
  | zero => rfl
  | succ f =>
    have h : innerFind cyclicState 17 (f + 1) 1 = innerFind cyclicState 17 f 2 := rfl
    exact h.trans (cyclicState_find_cycle f).1

/-- Claim C9 counterexample: the claim states that an insertion into an
empty tree (the value was not already present) returns a handle to the
newly inserted node.  The very first insertion creates the root node and
increments the count, but the source executes a bare return, so the call
yields None: no handle is returned. -/
theorem c9_counterexample_first_insert_no_handle :
    (add initState 10).2 = Except.ok none ∧
    (add initState 10).1.count = 1 ∧
    (add initState 10).1.root = some 1 ∧
    ((add initState 10).1.store 1).value = some 10 :=
  ⟨rfl, rfl, rfl, rfl⟩

/-! Field-level description of the setters, used by the invariant
proofs below. -/

lemma store_setNode (s : TreeState) (i : Nat) (d : RBNodeData) (j : Nat) :
    (setNode s i d).store j = if j = i then d else s.store j := rfl

lemma store_setLeft (s : TreeState) (i : Nat) (v : Option Nat) (j : Nat) :
    (setLeft s i v).store j = if j = i then { s.store i with left := v } else s.store j := rfl

lemma store_setRight (s : TreeState) (i : Nat) (v : Option Nat) (j : Nat) :
    (setRight s i v).store j = if j = i then { s.store i with right := v } else s.store j := rfl

lemma store_setColor (s : TreeState) (i : Nat) (c : Shades) (j : Nat) :
    (setColor s i c).store j = if j = i then { s.store i with color := c } else s.store j := rfl

@[simp] lemma value_setLeft (s : TreeState) (i : Nat) (v : Option Nat) (j : Nat) :
    ((setLeft s i v).store j).value = (s.store j).value := by
  rw [store_setLeft]; split
  · next h => rw [h]
  · rfl

@[simp] lemma value_setRight (s : TreeState) (i : Nat) (v : Option Nat) (j : Nat) :
    ((setRight s i v).store j).value = (s.store j).value := by
  rw [store_setRight]; split
  · next h => rw [h]
  · rfl

@[simp] lemma value_setColor (s : TreeState) (i : Nat) (c : Shades) (j : Nat) :
    ((setColor s i c).store j).value = (s.store j).value := by
  rw [store_setColor]; split
  · next h => rw [h]
  · rfl

@[simp] lemma parent_setLeft (s : TreeState) (i : Nat) (v : Option Nat) (j : Nat) :
    ((setLeft s i v).store j).parent = (s.store j).parent := by
  rw [store_setLeft]; split
  · next h => rw [h]
  · rfl

@[simp] lemma parent_setRight (s : TreeState) (i : Nat) (v : Option Nat) (j : Nat) :
    ((setRight s i v).store j).parent = (s.store j).parent := by
  rw [store_setRight]; split
  · next h => rw [h]
  · rfl

@[simp] lemma parent_setColor (s : TreeState) (i : Nat) (c : Shades) (j : Nat) :
    ((setColor s i c).store j).parent = (s.store j).parent := by
  rw [store_setColor]; split
  · next h => rw [h]
  · rfl

@[simp] lemma color_setLeft (s : TreeState) (i : Nat) (v : Option Nat) (j : Nat) :
    ((setLeft s i v).store j).color = (s.store j).color := by
  rw [store_setLeft]; split
  · next h => rw [h]
  · rfl

@[simp] lemma color_setRight (s : TreeState) (i : Nat) (v : Option Nat) (j : Nat) :
    ((setRight s i v).store j).color = (s.store j).color := by
  rw [store_setRight]; split
  · next h => rw [h]
  · rfl

lemma color_setColor (s : TreeState) (i : Nat) (c : Shades) (j : Nat) :
    ((setColor s i c).store j).color = if j = i then c else (s.store j).color := by
  rw [store_setColor]; split <;> rfl

lemma left_setLeft (s : TreeState) (i : Nat) (v : Option Nat) (j : Nat) :
    ((setLeft s i v).store j).left = if j = i then v else (s.store j).left := by
  rw [store_setLeft]; split <;> rfl

@[simp] lemma left_setRight (s : TreeState) (i : Nat) (v : Option Nat) (j : Nat) :
    ((setRight s i v).store j).left = (s.store j).left := by
  rw [store_setRight]; split
  · next h => rw [h]
  · rfl

@[simp] lemma left_setColor (s : TreeState) (i : Nat) (c : Shades) (j : Nat) :
    ((setColor s i c).store j).left = (s.store j).left := by
  rw [store_setColor]; split
  · next h => rw [h]
  · rfl

@[simp] lemma right_setLeft (s : TreeState) (i : Nat) (v : Option Nat) (j : Nat) :
    ((setLeft s i v).store j).right = (s.store j).right := by
  rw [store_setLeft]; split
  · next h => rw [h]
  · rfl

lemma right_setRight (s : TreeState) (i : Nat) (v : Option Nat) (j : Nat) :
    ((setRight s i v).store j).right = if j = i then v else (s.store j).right := by
  rw [store_setRight]; split <;> rfl

@[simp] lemma right_setColor (s : TreeState) (i : Nat) (c : Shades) (j : Nat) :
    ((setColor s i c).store j).right = (s.store j).right := by
  rw [store_setColor]; split
  · next h => rw [h]
  · rfl

@[simp] lemma root_setLeft (s : TreeState) (i : Nat) (v : Option Nat) :
    (setLeft s i v).root = s.root := rfl

@[simp] lemma root_setRight (s : TreeState) (i : Nat) (v : Option Nat) :
    (setRight s i v).root = s.root := rfl

@[simp] lemma root_setColor (s : TreeState) (i : Nat) (c : Shades) :
    (setColor s i c).root = s.root := rfl

@[simp] lemma nextId_setLeft (s : TreeState) (i : Nat) (v : Option Nat) :
    (setLeft s i v).nextId = s.nextId := rfl

@[simp] lemma nextId_setRight (s : TreeState) (i : Nat) (v : Option Nat) :
    (setRight s i v).nextId = s.nextId := rfl

@[simp] lemma nextId_setColor (s : TreeState) (i : Nat) (c : Shades) :
    (setColor s i c).nextId = s.nextId := rfl

lemma store_setLeft_untouched (s : TreeState) (i : Nat) (v : Option Nat) (j : Nat)
    (h : j ≠ i) : (setLeft s i v).store j = s.store j := by
  rw [store_setLeft, if_neg h]

lemma store_setRight_untouched (s : TreeState) (i : Nat) (v : Option Nat) (j : Nat)
    (h : j ≠ i) : (setRight s i v).store j = s.store j := by
  rw [store_setRight, if_neg h]

lemma store_setColor_untouched (s : TreeState) (i : Nat) (c : Shades) (j : Nat)
    (h : j ≠ i) : (setColor s i c).store j = s.store j := by
  rw [store_setColor, if_neg h]

/-! The arena invariant needed to track the sentinel: the sentinel at id 0
keeps value None and color Black; the allocator counter is positive and
every unallocated slot still holds the default record; parent references
and the root reference point at nodes carrying a value; child references
stay below the allocator counter. -/

structure Inv (s : TreeState) : Prop where
  s0_value : (s.store 0).value = none
  s0_color : (s.store 0).color = Shades.BLACK
  pos : 1 ≤ s.nextId
  fresh : ∀ i, s.nextId ≤ i → s.store i = nilData
  parent_real : ∀ i p, (s.store i).parent = some p → (s.store p).value ≠ none
  root_real : ∀ r, s.root = some r → (s.store r).value ≠ none
  left_lt : ∀ i j, (s.store i).left = some j → j < s.nextId
  right_lt : ∀ i j, (s.store i).right = some j → j < s.nextId

lemma Inv.real_lt {s : TreeState} (h : Inv s) {i : Nat}
    (hi : (s.store i).value ≠ none) : i < s.nextId := by
  by_contra hle
  push_neg at hle
  exact hi (by rw [h.fresh i hle]; rfl)

lemma Inv.real_ne_zero {s : TreeState} (h : Inv s) {i : Nat}
    (hi : (s.store i).value ≠ none) : i ≠ 0 := by
  intro h0
  exact hi (h0 ▸ h.s0_value)

lemma inv_initState : Inv initState := by
  refine ⟨rfl, rfl, le_refl 1, fun i _ => rfl, ?_, ?_, ?_, ?_⟩
  · intro i p hp
    exact absurd hp (by simp [initState, nilData])
  · intro r hr
    exact absurd hr (by simp [initState])
  · intro i j hj
    exact absurd hj (by simp [initState, nilData])
  · intro i j hj
    exact absurd hj (by simp [initState, nilData])

lemma inv_setLeft {s : TreeState} (h : Inv s) {i : Nat} {v : Option Nat}
    (hi : i < s.nextId) (hv : ∀ j, v = some j → j < s.nextId) :
    Inv (setLeft s i v) := by
  refine ⟨?_, ?_, ?_, ?_, ?_, ?_, ?_, ?_⟩
  · rw [value_setLeft]; exact h.s0_value
  · rw [color_setLeft]; exact h.s0_color
  · exact h.pos
  · intro k hk
    rw [nextId_setLeft] at hk
    have : k ≠ i := fun he => absurd hi (by omega)
    rw [store_setLeft_untouched s i v k this]
    exact h.fresh k hk
  · intro k p hp
    rw [parent_setLeft] at hp
    rw [value_setLeft]
    exact h.parent_real k p hp
  · intro r hr
    rw [root_setLeft] at hr
    rw [value_setLeft]
    exact h.root_real r hr
  · intro k j hj
    rw [left_setLeft] at hj
    rw [nextId_setLeft]
    split at hj
    · exact hv j hj
    · exact h.left_lt k j hj
  · intro k j hj
    rw [right_setLeft] at hj
    rw [nextId_setLeft]
    exact h.right_lt k j hj

lemma inv_setRight {s : TreeState} (h : Inv s) {i : Nat} {v : Option Nat}
    (hi : i < s.nextId) (hv : ∀ j, v = some j → j < s.nextId) :
    Inv (setRight s i v) := by
  refine ⟨?_, ?_, ?_, ?_, ?_, ?_, ?_, ?_⟩
  · rw [value_setRight]; exact h.s0_value
  · rw [color_setRight]; exact h.s0_color
  · exact h.pos
  · intro k hk
    rw [nextId_setRight] at hk
    have : k ≠ i := fun he => absurd hi (by omega)
    rw [store_setRight_untouched s i v k this]
    exact h.fresh k hk
  · intro k p hp
    rw [parent_setRight] at hp
    rw [value_setRight]
    exact h.parent_real k p hp
  · intro r hr
    rw [root_setRight] at hr
    rw [value_setRight]
    exact h.root_real r hr
  · intro k j hj
    rw [left_setRight] at hj
    rw [nextId_setRight]
    exact h.left_lt k j hj
  · intro k j hj
    rw [right_setRight] at hj
    rw [nextId_setRight]
    split at hj
    · exact hv j hj
    · exact h.right_lt k j hj

lemma inv_setColor {s : TreeState} (h : Inv s) {i : Nat} {c : Shades}
    (hi : i < s.nextId) (hc : c = Shades.RED → i ≠ 0) :
    Inv (setColor s i c) := by
  refine ⟨?_, ?_, ?_, ?_, ?_, ?_, ?_, ?_⟩
  · rw [value_setColor]; exact h.s0_value
  · rw [color_setColor]
    split
    · next h0 =>
      cases c with
      | BLACK => rfl
      | RED => exact absurd h0.symm (hc rfl)
    · exact h.s0_color
  · exact h.pos
  · intro k hk
    rw [nextId_setColor] at hk
    have : k ≠ i := fun he => absurd hi (by omega)
    rw [store_setColor_untouched s i c k this]
    exact h.fresh k hk
  · intro k p hp
    rw [parent_setColor] at hp
    rw [value_setColor]
    exact h.parent_real k p hp
  · intro r hr
    rw [root_setColor] at hr
    rw [value_setColor]
    exact h.root_real r hr
  · intro k j hj
    rw [left_setColor] at hj
    rw [nextId_setColor]
    exact h.left_lt k j hj
  · intro k j hj
    rw [right_setColor] at hj
    rw [nextId_setColor]
    exact h.right_lt k j hj

lemma inv_rightRotation {s : TreeState} (h : Inv s) {A X B Y C R : Option Nat}
    (hA : ∀ j, A = some j → j < s.nextId)
    (hB : ∀ j, B = some j → j < s.nextId)
    (hC : ∀ j, C = some j → j < s.nextId)
    (hX : ∀ j, X = some j → j < s.nextId)
    (hY : ∀ j, Y = some j → j < s.nextId ∧ j ≠ 0)
    (hR : ∀ j, R = some j → j < s.nextId ∧ j ≠ 0)
    {s2 : TreeState} (he : rightRotation s A X B Y C R = .ok s2) : Inv s2 := by
  unfold rightRotation at he
  cases X with
  | none => exact Except.noConfusion he
  | some x =>
    cases Y with
    | none => exact Except.noConfusion he
    | some y =>
      have hx := hX x rfl
      have hy := hY y rfl
      have h1 : Inv (setLeft s x A) := inv_setLeft h hx hA
      have h2 : Inv (setRight (setLeft s x A) x (some y)) :=
        inv_setRight h1 hx (fun j hj => by cases hj; exact hy.1)
      have h3 : Inv (setLeft (setRight (setLeft s x A) x (some y)) y B) :=
        inv_setLeft h2 hy.1 hB
      have h4 : Inv (setRight (setLeft (setRight (setLeft s x A) x (some y)) y B) y C) :=
        inv_setRight h3 hy.1 hC
      cases R with
      | none =>
        simp only [Except.ok.injEq] at he
        exact he ▸ h4
      | some nd =>
        have hnd := hR nd rfl
        simp only [Except.ok.injEq] at he
        refine he ▸ inv_setColor (inv_setColor (inv_setColor h4 hx ?_) hnd.1 ?_) hy.1 ?_
        · intro hb
          exact Shades.noConfusion hb
        · intro _
          exact hnd.2
        · intro _
          exact hy.2

lemma inv_leftRotation {s : TreeState} (h : Inv s) {A X B Y C R : Option Nat}
    (hA : ∀ j, A = some j → j < s.nextId)
    (hB : ∀ j, B = some j → j < s.nextId)
    (hC : ∀ j, C = some j → j < s.nextId)
    (hX : ∀ j, X = some j → j < s.nextId ∧ j ≠ 0)
    (hY : ∀ j, Y = some j → j < s.nextId)
    (hR : ∀ j, R = some j → j < s.nextId ∧ j ≠ 0)
    {s2 : TreeState} (he : leftRotation s A X B Y C R = .ok s2) : Inv s2 := by
  unfold leftRotation at he
  cases Y with
  | none => exact Except.noConfusion he
  | some y =>
    cases X with
    | none => exact Except.noConfusion he
    | some x =>
      have hx := hX x rfl
      have hy := hY y rfl
      have h1 : Inv (setLeft s y (some x)) :=
        inv_setLeft h hy (fun j hj => by cases hj; exact hx.1)
      have h2 : Inv (setRight (setLeft s y (some x)) y C) := inv_setRight h1 hy hC
      have h3 : Inv (setLeft (setRight (setLeft s y (some x)) y C) x A) :=
        inv_setLeft h2 hx.1 hA
      have h4 : Inv (setRight (setLeft (setRight (setLeft s y (some x)) y C) x A) x B) :=
        inv_setRight h3 hx.1 hB
      cases R with
      | none =>
        simp only [Except.ok.injEq] at he
        exact he ▸ h4
      | some nd =>
        have hnd := hR nd rfl
        simp only [Except.ok.injEq] at he
        refine he ▸ inv_setColor (inv_setColor (inv_setColor h4 hy ?_) hnd.1 ?_) hx.1 ?_
        · intro hb
          exact Shades.noConfusion hb
        · intro _
          exact hnd.2
        · intro _
          exact hx.2

/- Every node inner_find can return was visited along the descent, and the
   descent only ever stands on nodes whose value is not None. -/
lemma innerFind_real {s : TreeState} {v : Int} :
    ∀ (fuel q p : Nat) (d : Option Dir), (s.store q).value ≠ none →
      innerFind s v fuel q = .ok (p, d) → (s.store p).value ≠ none := by
  intro fuel
  induction fuel with
  | zero =>
    intro q p d _ he
    exact Except.noConfusion he
  | succ f ih =>
    intro q p d hq he
    rw [innerFind] at he
    cases hv : (s.store q).value with
    | none => exact absurd hv hq
    | some pv =>
      rw [hv] at he
      dsimp only at he
      split at he
      · simp only [Except.ok.injEq, Prod.mk.injEq] at he
        exact he.1 ▸ hq
      · split at he
        · cases hl : (s.store q).left with
          | none => rw [hl] at he; exact Except.noConfusion he
          | some l =>
            rw [hl] at he
            dsimp only at he
            split at he
            · simp only [Except.ok.injEq, Prod.mk.injEq] at he
              exact he.1 ▸ hq
            · next hlv => exact ih l p d hlv he
        · cases hrr : (s.store q).right with
          | none => rw [hrr] at he; exact Except.noConfusion he
          | some r =>
            rw [hrr] at he
            dsimp only at he
            split at he
            · simp only [Except.ok.injEq, Prod.mk.injEq] at he
              exact he.1 ▸ hq
            · next hrv => exact ih r p d hrv he

lemma findParent_real {s : TreeState} (h : Inv s) {v : Int} {p : Nat} {d : Option Dir}
    (he : findParent s v = .ok (p, d)) : (s.store p).value ≠ none := by
  unfold findParent at he
  cases hr : s.root with
  | none => rw [hr] at he; exact Except.noConfusion he
  | some r =>
    rw [hr] at he
    exact innerFind_real s.nextId r p d (h.root_real r hr) he

/- Updating the count field leaves every invariant untouched. -/
lemma inv_setCount {s : TreeState} (h : Inv s) (c : Nat) :
    Inv { s with count := c } :=
  ⟨h.s0_value, h.s0_color, h.pos, h.fresh, h.parent_real, h.root_real,
    h.left_lt, h.right_lt⟩

/- Creating the black root node for an empty tree preserves the arena
   invariant. -/
lemma inv_rootCreate {s : TreeState} (h : Inv s) (v : Int) :
    Inv { setNode s s.nextId
            { value := some v, color := Shades.BLACK, parent := none,
              left := some 0, right := some 0 } with
          root := some s.nextId, count := s.count + 1, nextId := s.nextId + 1 } := by
  have hpos := h.pos
  refine ⟨?_, ?_, ?_, ?_, ?_, ?_, ?_, ?_⟩
  · show ((if 0 = s.nextId then _ else s.store 0) : RBNodeData).value = none
    rw [if_neg (by omega)]
    exact h.s0_value
  · show ((if 0 = s.nextId then _ else s.store 0) : RBNodeData).color = Shades.BLACK
    rw [if_neg (by omega)]
    exact h.s0_color
  · show 1 ≤ s.nextId + 1
    omega
  · intro k hk
    have hk1 : s.nextId + 1 ≤ k := hk
    show (if k = s.nextId then _ else s.store k) = nilData
    rw [if_neg (by omega)]
    exact h.fresh k (by omega)
  · intro k p hp
    show ((if p = s.nextId then _ else s.store p) : RBNodeData).value ≠ none
    split
    · exact fun hc => Option.noConfusion hc
    · refine h.parent_real k p ?_
      revert hp
      show ((if k = s.nextId then _ else s.store k) : RBNodeData).parent = some p →
        (s.store k).parent = some p
      split
      · intro hc
        exact Option.noConfusion hc
      · exact id
  · intro r hr
    have hr1 : some s.nextId = some r := hr
    simp only [Option.some.injEq] at hr1
    show ((if r = s.nextId then _ else s.store r) : RBNodeData).value ≠ none
    rw [if_pos hr1.symm]
    exact fun hc => Option.noConfusion hc
  · intro k j hj
    revert hj
    show ((if k = s.nextId then _ else s.store k) : RBNodeData).left = some j →
      j < s.nextId + 1
    split
    · intro hj
      simp only [Option.some.injEq] at hj
      omega
    · intro hj
      have := h.left_lt k j hj
      omega
  · intro k j hj
    revert hj
    show ((if k = s.nextId then _ else s.store k) : RBNodeData).right = some j →
      j < s.nextId + 1
    split
    · intro hj
      simp only [Option.some.injEq] at hj
      omega
    · intro hj
      have := h.right_lt k j hj
      omega

/- Attaching the freshly created red node as the left child of its parent
   (the parent found by _find_parent) preserves the arena invariant. -/
lemma inv_attachL {s : TreeState} (h : Inv s) {parentId : Nat} {v : Int}
    (hp : (s.store parentId).value ≠ none) :
    Inv { setLeft
            (setNode s s.nextId
              { value := some v, color := Shades.RED, parent := some parentId,
                left := some 0, right := some 0 })
            parentId (some s.nextId) with
          nextId := s.nextId + 1 } := by
  have hplt : parentId < s.nextId := h.real_lt hp
  have hpne : parentId ≠ s.nextId := by omega
  have hp0 : parentId ≠ 0 := h.real_ne_zero hp
  set d0 : RBNodeData :=
    { value := some v, color := Shades.RED, parent := some parentId,
      left := some 0, right := some 0 } with hd0
  have hval : ∀ j, (((setLeft (setNode s s.nextId d0) parentId (some s.nextId)).store j).value)
      = if j = s.nextId then some v else (s.store j).value := by
    intro j
    rw [value_setLeft, store_setNode]
    split <;> rfl
  have hpar : ∀ j, (((setLeft (setNode s s.nextId d0) parentId (some s.nextId)).store j).parent)
      = if j = s.nextId then some parentId else (s.store j).parent := by
    intro j
    rw [parent_setLeft, store_setNode]
    split <;> rfl
  have hcol : ∀ j, (((setLeft (setNode s s.nextId d0) parentId (some s.nextId)).store j).color)
      = if j = s.nextId then Shades.RED else (s.store j).color := by
    intro j
    rw [color_setLeft, store_setNode]
    split <;> rfl
  have hrgt : ∀ j, (((setLeft (setNode s s.nextId d0) parentId (some s.nextId)).store j).right)
      = if j = s.nextId then some 0 else (s.store j).right := by
    intro j
    rw [right_setLeft, store_setNode]
    split <;> rfl
  have hlft : ∀ j, (((setLeft (setNode s s.nextId d0) parentId (some s.nextId)).store j).left)
      = if j = parentId then some s.nextId
        else if j = s.nextId then some 0 else (s.store j).left := by
    intro j
    rw [left_setLeft, store_setNode]
    by_cases hj : j = parentId
    · rw [if_pos hj, if_pos hj]
    · rw [if_neg hj, if_neg hj]
      split <;> rfl
  have hpos := h.pos
  refine ⟨?_, ?_, ?_, ?_, ?_, ?_, ?_, ?_⟩
  · show (((setLeft (setNode s s.nextId d0) parentId (some s.nextId)).store 0).value) = none
    rw [hval, if_neg (by omega)]
    exact h.s0_value
  · show (((setLeft (setNode s s.nextId d0) parentId (some s.nextId)).store 0).color)
      = Shades.BLACK
    rw [hcol, if_neg (by omega)]
    exact h.s0_color
  · show 1 ≤ s.nextId + 1
    omega
  · intro k hk
    have hk1 : s.nextId + 1 ≤ k := hk
    show ((setLeft (setNode s s.nextId d0) parentId (some s.nextId)).store k) = nilData
    rw [store_setLeft, if_neg (by omega), store_setNode, if_neg (by omega)]
    exact h.fresh k (by omega)
  · intro k p hkp
    show (((setLeft (setNode s s.nextId d0) parentId (some s.nextId)).store p).value) ≠ none
    rw [hval]
    rw [hpar] at hkp
    split
    · exact fun hc => Option.noConfusion hc
    · revert hkp
      split
      · intro hkp
        simp only [Option.some.injEq] at hkp
        exact hkp ▸ hp
      · intro hkp
        exact h.parent_real k p hkp
  · intro r hr
    show (((setLeft (setNode s s.nextId d0) parentId (some s.nextId)).store r).value) ≠ none
    rw [hval]
    split
    · exact fun hc => Option.noConfusion hc
    · exact h.root_real r hr
  · intro k j hj
    show j < s.nextId + 1
    rw [hlft] at hj
    revert hj
    split
    · intro hj
      simp only [Option.some.injEq] at hj
      omega
    · split
      · intro hj
        simp only [Option.some.injEq] at hj
        omega
      · intro hj
        have := h.left_lt k j hj
        omega
  · intro k j hj
    show j < s.nextId + 1
    rw [hrgt] at hj
    revert hj
    split
    · intro hj
      simp only [Option.some.injEq] at hj
      omega
    · intro hj
      have := h.right_lt k j hj
      omega

/- The same for attaching on the right. -/
lemma inv_attachR {s : TreeState} (h : Inv s) {parentId : Nat} {v : Int}
    (hp : (s.store parentId).value ≠ none) :
    Inv { setRight
            (setNode s s.nextId
              { value := some v, color := Shades.RED, parent := some parentId,
                left := some 0, right := some 0 })
            parentId (some s.nextId) with
          nextId := s.nextId + 1 } := by
  have hplt : parentId < s.nextId := h.real_lt hp
  have hpne : parentId ≠ s.nextId := by omega
  have hp0 : parentId ≠ 0 := h.real_ne_zero hp
  set d0 : RBNodeData :=
    { value := some v, color := Shades.RED, parent := some parentId,
      left := some 0, right := some 0 } with hd0
  have hval : ∀ j, (((setRight (setNode s s.nextId d0) parentId (some s.nextId)).store j).value)
      = if j = s.nextId then some v else (s.store j).value := by
    intro j
    rw [value_setRight, store_setNode]
    split <;> rfl
  have hpar : ∀ j, (((setRight (setNode s s.nextId d0) parentId (some s.nextId)).store j).parent)
      = if j = s.nextId then some parentId else (s.store j).parent := by
    intro j
    rw [parent_setRight, store_setNode]
    split <;> rfl
  have hcol : ∀ j, (((setRight (setNode s s.nextId d0) parentId (some s.nextId)).store j).color)
      = if j = s.nextId then Shades.RED else (s.store j).color := by
    intro j
    rw [color_setRight, store_setNode]
    split <;> rfl
  have hlft : ∀ j, (((setRight (setNode s s.nextId d0) parentId (some s.nextId)).store j).left)
      = if j = s.nextId then some 0 else (s.store j).left := by
    intro j
    rw [left_setRight, store_setNode]
    split <;> rfl
  have hrgt : ∀ j, (((setRight (setNode s s.nextId d0) parentId (some s.nextId)).store j).right)
      = if j = parentId then some s.nextId
        else if j = s.nextId then some 0 else (s.store j).right := by
    intro j
    rw [right_setRight, store_setNode]
    by_cases hj : j = parentId
    · rw [if_pos hj, if_pos hj]
    · rw [if_neg hj, if_neg hj]
      split <;> rfl
  have hpos := h.pos
  refine ⟨?_, ?_, ?_, ?_, ?_, ?_, ?_, ?_⟩
  · show (((setRight (setNode s s.nextId d0) parentId (some s.nextId)).store 0).value) = none
    rw [hval, if_neg (by omega)]
    exact h.s0_value
  · show (((setRight (setNode s s.nextId d0) parentId (some s.nextId)).store 0).color)
      = Shades.BLACK
    rw [hcol, if_neg (by omega)]
    exact h.s0_color
  · show 1 ≤ s.nextId + 1
    omega
  · intro k hk
    have hk1 : s.nextId + 1 ≤ k := hk
    show ((setRight (setNode s s.nextId d0) parentId (some s.nextId)).store k) = nilData
    rw [store_setRight, if_neg (by omega), store_setNode, if_neg (by omega)]
    exact h.fresh k (by omega)
  · intro k p hkp
    show (((setRight (setNode s s.nextId d0) parentId (some s.nextId)).store p).value) ≠ none
    rw [hval]
    rw [hpar] at hkp
    split
    · exact fun hc => Option.noConfusion hc
    · revert hkp
      split
      · intro hkp
        simp only [Option.some.injEq] at hkp
        exact hkp ▸ hp
      · intro hkp
        exact h.parent_real k p hkp
  · intro r hr
    show (((setRight (setNode s s.nextId d0) parentId (some s.nextId)).store r).value) ≠ none
    rw [hval]
    split
    · exact fun hc => Option.noConfusion hc
    · exact h.root_real r hr
  · intro k j hj
    show j < s.nextId + 1
    rw [hlft] at hj
    revert hj
    split
    · intro hj
      simp only [Option.some.injEq] at hj
      omega
    · intro hj
      have := h.left_lt k j hj
      omega
  · intro k j hj
    show j < s.nextId + 1
    rw [hrgt] at hj
    revert hj
    split
    · intro hj
      simp only [Option.some.injEq] at hj
      omega
    · split
      · intro hj
        simp only [Option.some.injEq] at hj
        omega
      · intro hj
        have := h.right_lt k j hj
        omega

/- _try_rebalance preserves the arena invariant whenever it returns
   normally; the node it is called on is the freshly attached one, so its
   id is allocated and not the sentinel. -/
lemma inv_tryRebalance {s : TreeState} (h : Inv s) {nodeId : Nat}
    (hn0 : nodeId ≠ 0) (hnlt : nodeId < s.nextId) {s2 : TreeState}
    (he : tryRebalance s nodeId = .ok s2) : Inv s2 := by
  simp only [tryRebalance] at he
  split at he
  · simp only [Except.ok.injEq] at he
    exact he ▸ h
  · next parentId hpar =>
    split at he
    · simp only [Except.ok.injEq] at he
      exact he ▸ h
    · next grandId hg =>
      have hpv : (s.store parentId).value ≠ none := h.parent_real nodeId parentId hpar
      have hplt : parentId < s.nextId := h.real_lt hpv
      have hgv : (s.store grandId).value ≠ none := h.parent_real parentId grandId hg
      have hglt : grandId < s.nextId := h.real_lt hgv
      have hg0 : grandId ≠ 0 := h.real_ne_zero hgv
      split at he
      · simp only [Except.ok.injEq] at he
        exact he ▸ h
      · split at he
        · next nv pv hnvpv =>
          split at he
          · exact Except.noConfusion he
          · next gl hgl =>
            split at he
            · exact Except.noConfusion he
            · next uncle hu =>
              have hult : uncle < s.nextId := by
                split at hu
                · exact h.right_lt grandId uncle hu
                · exact h.left_lt grandId uncle hu
              split at he
              · split at he
                · exact inv_rightRotation h
                    (fun j hj => by cases hj; exact hnlt)
                    (fun j hj => by cases hj; exact hplt)
                    (fun j hj => by cases hj; exact hult)
                    (fun j hj => h.right_lt parentId j hj)
                    (fun j hj => by cases hj; exact ⟨hglt, hg0⟩)
                    (fun j hj => by cases hj; exact ⟨hnlt, hn0⟩) he
                · exact inv_leftRotation h
                    (fun j hj => by cases hj; exact hult)
                    (fun j hj => h.left_lt parentId j hj)
                    (fun j hj => by cases hj; exact hnlt)
                    (fun j hj => by cases hj; exact ⟨hglt, hg0⟩)
                    (fun j hj => by cases hj; exact hplt)
                    (fun j hj => by cases hj; exact ⟨hnlt, hn0⟩) he
                · exact Except.noConfusion he
                · exact Except.noConfusion he
              · exact Except.noConfusion he
        · exact Except.noConfusion he

/- add preserves the arena invariant (also on the calls that raise, since
   the returned object state keeps only well-formed mutations). -/
lemma inv_add {s : TreeState} (h : Inv s) (v : Int) : Inv (add s v).1 := by
  unfold add
  split
  · exact inv_rootCreate h v
  · next r hr =>
    split
    · exact h
    · exact h
    · next parentId dir hf =>
      have hp : (s.store parentId).value ≠ none := findParent_real h hf
      have hn0 : s.nextId ≠ 0 := by have := h.pos; omega
      cases dir with
      | L =>
        have h3 :
            Inv { setLeft
                    (setNode s s.nextId
                      { value := some v, color := Shades.RED, parent := some parentId,
                        left := some 0, right := some 0 })
                    parentId (some s.nextId) with
                  nextId := s.nextId + 1 } := inv_attachL h hp
        dsimp only
        split
        · next s4 htr =>
          exact inv_setCount (inv_tryRebalance h3 hn0 (show s.nextId < s.nextId + 1 by omega) htr) _
        · exact h3
      | R =>
        have h3 :
            Inv { setRight
                    (setNode s s.nextId
                      { value := some v, color := Shades.RED, parent := some parentId,
                        left := some 0, right := some 0 })
                    parentId (some s.nextId) with
                  nextId := s.nextId + 1 } := inv_attachR h hp
        dsimp only
        split
        · next s4 htr =>
          exact inv_setCount (inv_tryRebalance h3 hn0 (show s.nextId < s.nextId + 1 by omega) htr) _
        · exact h3

lemma inv_addList {s : TreeState} (h : Inv s) (vs : List Int) : Inv (addList s vs) := by
  induction vs generalizing s with
  | nil => exact h
  | cons v vs ih => exact ih (inv_add h v)

lemma inv_stateAfter (vs : List Int) : Inv (stateAfter vs) :=
  inv_addList inv_initState vs

/-- Claim C10: the shared sentinel NIL_LEAF keeps value None and color
Black after every sequence of add calls, including the calls that raise
exceptions: every red recoloring targets the grandfather or the new node
(both real nodes), values are only assigned at node creation, and the only
writes ever landing on the sentinel are child pointers and a redundant
Black recoloring. -/
theorem c10_sentinel_stays_black_and_valueless (vs : List Int) :
    ((stateAfter vs).store 0).value = none ∧
    ((stateAfter vs).store 0).color = Shades.BLACK :=
  ⟨(inv_stateAfter vs).s0_value, (inv_stateAfter vs).s0_color⟩

/-- Claim C9 amended: add returns a handle (the new node) only on the
path that attaches a node to a non-empty tree and rebalances without
raising; the insertion into an empty tree creates the Black root and
increments the count but executes a bare return, yielding None exactly
like the duplicate skip, and when _find_parent reports the value present
the call returns None leaving the object untouched.  When _find_parent
reports a free slot the call either returns the handle of the new node or
propagates an exception from rebalancing. -/
theorem c9_amended_insert_outcomes (s : TreeState) (v : Int) :
    (s.root = none →
      (add s v).2 = Except.ok none ∧
      (add s v).1.count = s.count + 1 ∧
      (add s v).1.root = some s.nextId ∧
      ((add s v).1.store s.nextId).value = some v) ∧
    (∀ p, findParent s v = Except.ok (p, none) → add s v = (s, Except.ok none)) ∧
    (∀ p d, findParent s v = Except.ok (p, some d) →
      (add s v).2 = Except.ok (some s.nextId) ∨
        ∃ e, (add s v).2 = Except.error e) := by
  refine ⟨?_, ?_, ?_⟩
  · intro h0
    unfold add
    rw [h0]
    refine ⟨rfl, rfl, rfl, ?_⟩
    show ((setNode s s.nextId _).store s.nextId).value = some v
    rw [store_setNode, if_pos rfl]
  · intro p hp
    unfold add
    cases hr : s.root with
    | none =>
      unfold findParent at hp
      rw [hr] at hp
      exact Except.noConfusion hp
    | some r =>
      dsimp only
      rw [hp]
  · intro p d hp
    unfold add
    cases hr : s.root with
    | none =>
      unfold findParent at hp
      rw [hr] at hp
      exact Except.noConfusion hp
    | some r =>
      dsimp only
      rw [hp]
      dsimp only
      split
      · exact Or.inl rfl
      · next e _ => exact Or.inr ⟨e, rfl⟩

/-- Witness for the amended C9 theorem: the empty-tree branch at the
first insertion of 10, and the duplicate branch when 10 is inserted again
after [10, 20]. -/
theorem c9_amended_insert_outcomes_witness :
    (initState.root = none ∧
      ((add initState 10).2 = Except.ok none ∧
        (add initState 10).1.count = initState.count + 1 ∧
        (add initState 10).1.root = some initState.nextId ∧
        ((add initState 10).1.store initState.nextId).value = some 10)) ∧
    (findParent (stateAfter [10, 20]) 10 = Except.ok (1, none) ∧
      add (stateAfter [10, 20]) 10 = (stateAfter [10, 20], Except.ok none)) :=
  ⟨⟨rfl, (c9_amended_insert_outcomes initState 10).1 rfl⟩,
    ⟨rfl, (c9_amended_insert_outcomes (stateAfter [10, 20]) 10).2.1 1 rfl⟩⟩

end RedBlackTree
